import Mathlib

/-!
Shallow embedding of the form3api Go client: the retry engine with
exponential backoff and jitter, the cancellation-aware sleep, the
status-code-to-typed-error classification, and the Create/Fetch/Delete
operations, together with theorems checking the specification claims.

Conventions of the embedding:
* durations are integers counted in milliseconds;
* the HTTP transport (`http.Client.Do`) is an injected function from the
  request and the attempt index to either a response or a transport error;
* the random jitter draws (`rand.Intn`) and the select races inside
  `sleepContext` are injected as per-attempt oracles, so every execution
  of the Go code corresponds to one choice of these oracles;
* JSON decoding of a received body is abstracted by a `Body` record that
  states, for each target shape the source decodes into, whether decoding
  succeeds and with which value.
-/

/-- GenericError: error message body for 400 and 409 HTTP status codes. -/
structure GenericError where
  errorMessage : String
  errorCode : String
deriving DecidableEq

/-- ForbiddenError: message body for the HTTP 403 status code. -/
structure ForbiddenError where
  error : String
  errorDescription : String
deriving DecidableEq

/-- AccountAttributes, mirroring the wire schema field for field. -/
structure AccountAttributes where
  accountClassif : Option String
  accountMatchingOptOut : Option Bool
  accountNumber : String
  alternativeNames : List String
  bankID : String
  bankIDCode : String
  baseCurrency : String
  bic : String
  country : Option String
  iban : String
  jointAccount : Option Bool
  name : List String
  secondaryIdentification : String
  status : Option String
  switched : Option Bool
deriving DecidableEq

/-- AccountData, mirroring the Go struct (pointer fields become Option). -/
structure AccountData where
  attributes : Option AccountAttributes
  id : String
  organisationID : String
  type : String
  version : Option Int
deriving DecidableEq

/-- The Go zero value `AccountData\x7b\x7d`: nil pointers and empty strings. -/
def AccountData.zero : AccountData :=
  { attributes := none, id := "", organisationID := "", type := "", version := none }

/-- The typed error taxonomy of the client, one constructor per Go error
type that can escape the engine (`errDecode` stands for a json decoding
error, `errTransport` for an error returned by the transport itself and
`errCtx` for a context cancellation error). -/
inductive ApiError where
  | errHttp (statusCode : Nat)
  | errNotFound
  | errTooManyRetries
  | errBadRequest (e : GenericError)
  | errConflict (e : GenericError)
  | errForbidden (e : ForbiddenError)
  | errDecode
  | errTransport (msg : String)
  | errCtx
deriving DecidableEq

/-- isSameGenericError from errors.go: field-wise equality where an empty
field of the second argument (the comparison target) is a wildcard. -/
def isSameGenericError (a b : GenericError) : Bool :=
  (a.errorCode == b.errorCode || b.errorCode == "") &&
    (a.errorMessage == b.errorMessage || b.errorMessage == "")

/-- isSameForbiddenError from errors.go. -/
def isSameForbiddenError (a b : ForbiddenError) : Bool :=
  (a.error == b.error || b.error == "") &&
    (a.errorDescription == b.errorDescription || b.errorDescription == "")

/-- The Is method of ErrBadRequest: the target must be an ErrBadRequest
and the generic payloads must agree up to target wildcards. -/
def ErrBadRequest.Is (e : GenericError) (target : ApiError) : Bool :=
  match target with
  | .errBadRequest t => isSameGenericError e t
  | _ => false

/-- The Is method of ErrConflict. -/
def ErrConflict.Is (e : GenericError) (target : ApiError) : Bool :=
  match target with
  | .errConflict t => isSameGenericError e t
  | _ => false

/-- The Is method of ErrForbidden. -/
def ErrForbidden.Is (e : ForbiddenError) (target : ApiError) : Bool :=
  match target with
  | .errForbidden t => isSameForbiddenError e t
  | _ => false

/-- Decoding oracle for a received response body: for each Go type the
source ever decodes a body into, whether `json.Decode` succeeds and with
which decoded value. -/
structure Body where
  decodeGeneric : Option GenericError
  decodeForbidden : Option ForbiddenError
  decodeEnvelope : Option AccountData
deriving DecidableEq

/-- An HTTP response as the engine sees it: a status code and a body. -/
structure Response where
  statusCode : Nat
  body : Body
deriving DecidableEq

/-- Result of one `client.Do` call: a response, or a transport error. -/
inductive TransportResult where
  | failure (msg : String)
  | response (resp : Response)
deriving DecidableEq

/-- Whether a transport call produced a response at all. -/
def TransportResult.isResponse : TransportResult → Bool
  | .response _ => true
  | .failure _ => false

/-- Encoded request body: `json.Encode` of nil, or of the data envelope. -/
inductive ReqBody where
  | jsonNull
  | envelope (data : AccountData)
deriving DecidableEq

/-- An outbound HTTP request as built by httpDo. -/
structure Request where
  method : String
  url : String
  body : ReqBody
  headers : List (String × String)
deriving DecidableEq

/-- minBackOffMs constant from the source. -/
def minBackOffMs : Int := 100

/-- backOffJitterMs constant from the source. -/
def backOffJitterMs : Int := 100

/-- The max helper from the source, on Int. -/
def intMax (a b : Int) : Int :=
  if a > b then a else b

/-- The rounded exponential base of backOff: the exact value of the Go
expression int(math.Round(math.Pow(1.5, float64(n)) * 500.0)), i.e.
500 * 1.5 ^ n rounded half away from zero, computed over the integers as
floor((1000 * 3 ^ n + 2 ^ n) / 2 ^ (n + 1)). -/
def backOffBase (n : Nat) : Nat :=
  (1000 * 3 ^ n + 2 ^ n) / 2 ^ (n + 1)

/-- The delay backOff computes for attempt n and jitter draw j (the value
of rand.Intn(backOffJitterMs), so 0 ≤ j < 100 on real executions):
max(minBackOffMs, base + (j - backOffJitterMs/2)), in milliseconds. -/
def backOffDelay (n : Nat) (j : Nat) : Int :=
  intMax minBackOffMs (backOffBase n + ((j : Int) - backOffJitterMs / 2))

/-- Which arm of the select inside sleepContext wins: the timer tick, or
the context cancellation (carrying whether the timer had concurrently
fired, which is what makes Stop() return false). -/
inductive SelectOutcome where
  | tick
  | ctxDone (timerFired : Bool)
deriving DecidableEq

/-- Observable effects of one sleepContext call on its timer. -/
structure SleepEffects where
  stopCalled : Bool
  tickConsumed : Bool
deriving DecidableEq

/-- sleepContext: waits for the timer or the cancellation, whichever comes
first; on cancellation it stops the timer and, when Stop() reports the
timer already fired, consumes the pending tick, then returns ctx.Err(). -/
def sleepContext : SelectOutcome → Option ApiError × SleepEffects
  | .tick => (none, { stopCalled := false, tickConsumed := false })
  | .ctxDone timerFired => (some .errCtx, { stopCalled := true, tickConsumed := timerFired })

/-- The transient status switch of httpDoRetry: 429, 500, 503, 504. -/
def transientStatus (s : Nat) : Bool :=
  s == 429 || s == 500 || s == 503 || s == 504

/-- How httpDoRetry ends: with a response returned unconsumed at some
attempt, a transport failure at some attempt, a cancellation during the
backoff sleep of some attempt, or with the attempt budget exhausted. -/
inductive RetryOutcome where
  | ok (attempt : Nat) (resp : Response)
  | transportFailure (attempt : Nat) (msg : String)
  | cancelled (attempt : Nat) (eff : SleepEffects)
  | tooManyRetries
deriving DecidableEq

/-- Execution trace of one httpDoRetry call: its outcome, the requests
delivered to the transport in order, the attempt indices whose responses
were drained and closed inside the loop, and the backoff sleeps performed
(attempt index, requested duration in ms, timer effects). -/
structure RetryTrace where
  outcome : RetryOutcome
  sent : List Request
  drained : List Nat
  sleeps : List (Nat × Int × SleepEffects)
deriving DecidableEq

/-- The body of the httpDoRetry loop, one recursive step per iteration:
`i` is the current attempt index and the fuel argument is `count - i`,
so the loop runs while `i < count`. Each iteration sends the same `req`,
propagates a transport error immediately, drains a transient-status
response and sleeps via backOff, and returns any other response. -/
def httpDoRetryAux (transport : Request → Nat → TransportResult) (jit : Nat → Nat)
    (slp : Nat → SelectOutcome) (req : Request) : Nat → Nat → RetryTrace
  | _, 0 => { outcome := .tooManyRetries, sent := [], drained := [], sleeps := [] }
  | i, fuel + 1 =>
    match transport req i with
    | .failure msg =>
      { outcome := .transportFailure i msg, sent := [req], drained := [], sleeps := [] }
    | .response resp =>
      if transientStatus resp.statusCode then
        match sleepContext (slp i) with
        | (none, eff) =>
          let rest := httpDoRetryAux transport jit slp req (i + 1) fuel
          { outcome := rest.outcome, sent := req :: rest.sent,
            drained := i :: rest.drained,
            sleeps := (i, backOffDelay i (jit i), eff) :: rest.sleeps }
        | (some _, eff) =>
          { outcome := .cancelled i eff, sent := [req], drained := [i],
            sleeps := [(i, backOffDelay i (jit i), eff)] }
      else
        { outcome := .ok i resp, sent := [req], drained := [], sleeps := [] }

/-- httpDoRetry: run the loop from attempt 0 with budget `count`. -/
def httpDoRetry (transport : Request → Nat → TransportResult) (jit : Nat → Nat)
    (slp : Nat → SelectOutcome) (req : Request) (count : Nat) : RetryTrace :=
  httpDoRetryAux transport jit slp req 0 count

/-- parse400or409: decode the GenericError body; a decode failure
propagates as the decode error, otherwise dispatch on the status. -/
def parse400or409 (resp : Response) : ApiError :=
  match resp.body.decodeGeneric with
  | none => .errDecode
  | some ret => if resp.statusCode == 400 then .errBadRequest ret else .errConflict ret

/-- parse403: decode the ForbiddenError body. -/
def parse403 (resp : Response) : ApiError :=
  match resp.body.decodeForbidden with
  | none => .errDecode
  | some ret => .errForbidden ret

/-- parseError: the terminal status classification switch. -/
def parseError (resp : Response) : ApiError :=
  if resp.statusCode == 400 || resp.statusCode == 409 then parse400or409 resp
  else if resp.statusCode == 403 then parse403 resp
  else if resp.statusCode == 404 then .errNotFound
  else .errHttp resp.statusCode

/-- The request httpDo builds: method, url, encoded body, fixed headers. -/
def httpDoRequest (method url : String) (body : ReqBody) : Request :=
  { method := method, url := url, body := body,
    headers := [("Accept", "application/vnd.api+json"),
                ("Accept-Encoding", "gzip"),
                ("Content-Type", "application/vnd.api+json")] }

/-- Result of one httpDo call: the retry trace, the attempt index of the
final response drained and closed by httpDo itself (none when the retry
loop returned no response), and the outcome — an error, or success with
the value decoded into the destination when one was populated. -/
structure HttpDoResult where
  retry : RetryTrace
  finalDrained : Option Nat
  result : Except ApiError (Option AccountData)

/-- httpDo: encode the body, build the request, run the retry loop; on a
response, drain-and-close it exactly once (the deferred call) and either
decode the success envelope into the destination (when a destination was
supplied and the status is not 204) or classify the terminal status. -/
def httpDo (transport : Request → Nat → TransportResult) (jit : Nat → Nat)
    (slp : Nat → SelectOutcome) (retryCount : Nat) (method url : String)
    (body : ReqBody) (wantRes : Bool) : HttpDoResult :=
  let req := httpDoRequest method url body
  let rt := httpDoRetry transport jit slp req retryCount
  match rt.outcome with
  | .ok i resp =>
    if resp.statusCode == 200 || resp.statusCode == 201 || resp.statusCode == 204 then
      if wantRes && resp.statusCode != 204 then
        match resp.body.decodeEnvelope with
        | none => { retry := rt, finalDrained := some i, result := .error .errDecode }
        | some d => { retry := rt, finalDrained := some i, result := .ok (some d) }
      else { retry := rt, finalDrained := some i, result := .ok none }
    else { retry := rt, finalDrained := some i, result := .error (parseError resp) }
  | .transportFailure _ msg =>
    { retry := rt, finalDrained := none, result := .error (.errTransport msg) }
  | .cancelled _ _ =>
    { retry := rt, finalDrained := none, result := .error .errCtx }
  | .tooManyRetries =>
    { retry := rt, finalDrained := none, result := .error .errTooManyRetries }

/-- BaseURL constant from the source. -/
def BaseURL : String := "http://accountapi:8080"

/-- DefaultRetryCount constant from the source. -/
def DefaultRetryCount : Nat := 3

/-- api.Create: POST the data envelope and decode the response envelope;
on any error return the zero AccountData alongside the error. -/
def api.Create (transport : Request → Nat → TransportResult) (jit : Nat → Nat)
    (slp : Nat → SelectOutcome) (retryCount : Nat) (data : AccountData) :
    HttpDoResult × AccountData × Option ApiError :=
  let t := httpDo transport jit slp retryCount "POST"
    (BaseURL ++ "/v1/organisation/accounts") (.envelope data) true
  match t.result with
  | .error e => (t, AccountData.zero, some e)
  | .ok d => (t, d.getD AccountData.zero, none)

/-- api.Fetch: GET the account and decode the response envelope; on any
error return the zero AccountData alongside the error. -/
def api.Fetch (transport : Request → Nat → TransportResult) (jit : Nat → Nat)
    (slp : Nat → SelectOutcome) (retryCount : Nat) (accountID : String) :
    HttpDoResult × AccountData × Option ApiError :=
  let t := httpDo transport jit slp retryCount "GET"
    (BaseURL ++ "/v1/organisation/accounts/" ++ accountID) .jsonNull true
  match t.result with
  | .error e => (t, AccountData.zero, some e)
  | .ok d => (t, d.getD AccountData.zero, none)

/-- api.Delete: DELETE the account at the given version; no destination. -/
def api.Delete (transport : Request → Nat → TransportResult) (jit : Nat → Nat)
    (slp : Nat → SelectOutcome) (retryCount : Nat) (accountID : String)
    (version : Int) : HttpDoResult × Option ApiError :=
  let t := httpDo transport jit slp retryCount "DELETE"
    (BaseURL ++ "/v1/organisation/accounts/" ++ accountID ++ "?version="
      ++ toString version) .jsonNull false
  match t.result with
  | .error e => (t, some e)
  | .ok _ => (t, none)

/-! ### Structural lemmas about the retry loop -/

section RetryLemmas

variable (transport : Request → Nat → TransportResult) (jit : Nat → Nat)
  (slp : Nat → SelectOutcome) (req : Request)

/-- Every request the loop delivers to the transport is the one request
object built before the loop. -/
lemma httpDoRetryAux_sent_replicate : ∀ (fuel i : Nat),
    (httpDoRetryAux transport jit slp req i fuel).sent =
      List.replicate (httpDoRetryAux transport jit slp req i fuel).sent.length req := by
  intro fuel
  induction fuel with
  | zero => intro i; rfl
  | succ fuel ih =>
    intro i
    cases htr : transport req i with
    | failure msg => simp [httpDoRetryAux, htr]
    | response resp =>
      cases ht : transientStatus resp.statusCode with
      | false => simp [httpDoRetryAux, htr, ht]
      | true =>
        cases hs : slp i with
        | tick =>
          simp [httpDoRetryAux, htr, ht, hs, sleepContext, List.replicate_succ]
          exact ih (i + 1)
        | ctxDone b => simp [httpDoRetryAux, htr, ht, hs, sleepContext]

/-- Auxiliary list of the attempt index drained by the caller of the
retry loop: the returned attempt on an ok outcome, nothing otherwise. -/
def finalIdx : RetryOutcome → List Nat
  | .ok j _ => [j]
  | _ => []

/-- Drain ledger: the indices drained inside the loop together with the
index the caller must drain are exactly the attempts that received a
response, each exactly once and in order. -/
lemma httpDoRetryAux_ledger : ∀ (fuel i : Nat),
    (httpDoRetryAux transport jit slp req i fuel).drained ++
        finalIdx (httpDoRetryAux transport jit slp req i fuel).outcome =
      (List.range' i (httpDoRetryAux transport jit slp req i fuel).sent.length).filter
        (fun j => (transport req j).isResponse) := by
  intro fuel
  induction fuel with
  | zero => intro i; rfl
  | succ fuel ih =>
    intro i
    cases htr : transport req i with
    | failure msg =>
      simp [httpDoRetryAux, htr, finalIdx, List.range'_succ, TransportResult.isResponse]
    | response resp =>
      cases ht : transientStatus resp.statusCode with
      | false =>
        simp [httpDoRetryAux, htr, ht, finalIdx, List.range'_succ, TransportResult.isResponse]
      | true =>
        cases hs : slp i with
        | tick =>
          simp only [httpDoRetryAux, htr, ht, hs, sleepContext]
          simp only [List.length_cons, List.range'_succ, List.filter_cons, htr,
            TransportResult.isResponse, List.cons_append, if_true]
          exact congrArg (i :: ·) (ih (i + 1))
        | ctxDone b =>
          simp [httpDoRetryAux, htr, ht, hs, sleepContext, finalIdx, List.range'_succ,
            TransportResult.isResponse]

/-- Characterization of an ok outcome: the loop returned the response of
its last attempt, that response was not transient, and it was not drained
inside the loop. -/
lemma httpDoRetryAux_ok_char : ∀ (fuel i j : Nat) (resp : Response),
    (httpDoRetryAux transport jit slp req i fuel).outcome = .ok j resp →
    i ≤ j ∧
    (httpDoRetryAux transport jit slp req i fuel).sent.length + i = j + 1 ∧
    transport req j = .response resp ∧
    transientStatus resp.statusCode = false ∧
    j ∉ (httpDoRetryAux transport jit slp req i fuel).drained := by
  intro fuel
  induction fuel with
  | zero => intro i j resp h; simp [httpDoRetryAux] at h
  | succ fuel ih =>
    intro i j resp h
    cases htr : transport req i with
    | failure msg =>
      rw [show httpDoRetryAux transport jit slp req i (fuel + 1) =
        { outcome := .transportFailure i msg, sent := [req], drained := [], sleeps := [] }
        from by simp [httpDoRetryAux, htr]] at h
      simp at h
    | response resp2 =>
      cases ht : transientStatus resp2.statusCode with
      | false =>
        have hdef : httpDoRetryAux transport jit slp req i (fuel + 1) =
            { outcome := .ok i resp2, sent := [req], drained := [], sleeps := [] } := by
          simp [httpDoRetryAux, htr, ht]
        rw [hdef] at h ⊢
        obtain ⟨rfl, rfl⟩ : i = j ∧ resp2 = resp := by
          cases h; exact ⟨rfl, rfl⟩
        exact ⟨le_refl i, by simp [Nat.add_comm], htr, ht, by simp⟩
      | true =>
        cases hs : slp i with
        | ctxDone b =>
          have hdef : httpDoRetryAux transport jit slp req i (fuel + 1) =
              { outcome := .cancelled i { stopCalled := true, tickConsumed := b },
                sent := [req], drained := [i],
                sleeps := [(i, backOffDelay i (jit i),
                  { stopCalled := true, tickConsumed := b })] } := by
            simp [httpDoRetryAux, htr, ht, hs, sleepContext]
          rw [hdef] at h
          simp at h
        | tick =>
          have hdef : httpDoRetryAux transport jit slp req i (fuel + 1) =
              { outcome := (httpDoRetryAux transport jit slp req (i + 1) fuel).outcome,
                sent := req :: (httpDoRetryAux transport jit slp req (i + 1) fuel).sent,
                drained := i :: (httpDoRetryAux transport jit slp req (i + 1) fuel).drained,
                sleeps := (i, backOffDelay i (jit i),
                    { stopCalled := false, tickConsumed := false }) ::
                  (httpDoRetryAux transport jit slp req (i + 1) fuel).sleeps } := by
            simp [httpDoRetryAux, htr, ht, hs, sleepContext]
          rw [hdef] at h ⊢
          obtain ⟨h1, h2, h3, h4, h5⟩ := ih (i + 1) j resp h
          refine ⟨by omega, by simp; omega, h3, h4, ?_⟩
          simp only [List.mem_cons, not_or]
          exact ⟨by omega, h5⟩

end RetryLemmas

section RetryLemmas2

variable (transport : Request → Nat → TransportResult) (jit : Nat → Nat)
  (slp : Nat → SelectOutcome) (req : Request)

/-- Characterization of a cancelled outcome: the loop stopped right after
the backoff sleep of its last attempt was cancelled; the sleep stopped
the timer and consumed the pending tick exactly when the timer had
already fired, and the sleep was recorded with its requested duration. -/
lemma httpDoRetryAux_cancelled_char : ∀ (fuel i j : Nat) (eff : SleepEffects),
    (httpDoRetryAux transport jit slp req i fuel).outcome = .cancelled j eff →
    i ≤ j ∧
    (httpDoRetryAux transport jit slp req i fuel).sent.length + i = j + 1 ∧
    eff.stopCalled = true ∧
    slp j = .ctxDone eff.tickConsumed ∧
    (∃ r, transport req j = .response r ∧ transientStatus r.statusCode = true) ∧
    (j, backOffDelay j (jit j), eff) ∈ (httpDoRetryAux transport jit slp req i fuel).sleeps ∧
    j ∈ (httpDoRetryAux transport jit slp req i fuel).drained := by
  intro fuel
  induction fuel with
  | zero => intro i j eff h; simp [httpDoRetryAux] at h
  | succ fuel ih =>
    intro i j eff h
    cases htr : transport req i with
    | failure msg =>
      have hdef : httpDoRetryAux transport jit slp req i (fuel + 1) =
          { outcome := .transportFailure i msg, sent := [req], drained := [], sleeps := [] } := by
        simp [httpDoRetryAux, htr]
      rw [hdef] at h; simp at h
    | response resp =>
      cases ht : transientStatus resp.statusCode with
      | false =>
        have hdef : httpDoRetryAux transport jit slp req i (fuel + 1) =
            { outcome := .ok i resp, sent := [req], drained := [], sleeps := [] } := by
          simp [httpDoRetryAux, htr, ht]
        rw [hdef] at h; simp at h
      | true =>
        cases hs : slp i with
        | ctxDone b =>
          have hdef : httpDoRetryAux transport jit slp req i (fuel + 1) =
              { outcome := .cancelled i { stopCalled := true, tickConsumed := b },
                sent := [req], drained := [i],
                sleeps := [(i, backOffDelay i (jit i),
                  { stopCalled := true, tickConsumed := b })] } := by
            simp [httpDoRetryAux, htr, ht, hs, sleepContext]
          rw [hdef] at h ⊢
          obtain ⟨rfl, rfl⟩ : i = j ∧ ({ stopCalled := true, tickConsumed := b } : SleepEffects) = eff := by
            cases h; exact ⟨rfl, rfl⟩
          exact ⟨le_refl i, by simp [Nat.add_comm], rfl, hs, ⟨resp, htr, ht⟩, by simp, by simp⟩
        | tick =>
          have hdef : httpDoRetryAux transport jit slp req i (fuel + 1) =
              { outcome := (httpDoRetryAux transport jit slp req (i + 1) fuel).outcome,
                sent := req :: (httpDoRetryAux transport jit slp req (i + 1) fuel).sent,
                drained := i :: (httpDoRetryAux transport jit slp req (i + 1) fuel).drained,
                sleeps := (i, backOffDelay i (jit i),
                    { stopCalled := false, tickConsumed := false }) ::
                  (httpDoRetryAux transport jit slp req (i + 1) fuel).sleeps } := by
            simp [httpDoRetryAux, htr, ht, hs, sleepContext]
          rw [hdef] at h ⊢
          obtain ⟨h1, h2, h3, h4, h5, h6, h7⟩ := ih (i + 1) j eff h
          refine ⟨by omega, by simp; omega, h3, h4, h5, by simp [h6], by simp [h7]⟩

/-- Characterization of a transport-failure outcome: the failure happened
on the last attempt performed and its message is propagated unmodified. -/
lemma httpDoRetryAux_failure_char : ∀ (fuel i j : Nat) (msg : String),
    (httpDoRetryAux transport jit slp req i fuel).outcome = .transportFailure j msg →
    i ≤ j ∧
    (httpDoRetryAux transport jit slp req i fuel).sent.length + i = j + 1 ∧
    transport req j = .failure msg := by
  intro fuel
  induction fuel with
  | zero => intro i j msg h; simp [httpDoRetryAux] at h
  | succ fuel ih =>
    intro i j msg h
    cases htr : transport req i with
    | failure m =>
      have hdef : httpDoRetryAux transport jit slp req i (fuel + 1) =
          { outcome := .transportFailure i m, sent := [req], drained := [], sleeps := [] } := by
        simp [httpDoRetryAux, htr]
      rw [hdef] at h ⊢
      obtain ⟨rfl, rfl⟩ : i = j ∧ m = msg := by cases h; exact ⟨rfl, rfl⟩
      exact ⟨le_refl i, by simp [Nat.add_comm], htr⟩
    | response resp =>
      cases ht : transientStatus resp.statusCode with
      | false =>
        have hdef : httpDoRetryAux transport jit slp req i (fuel + 1) =
            { outcome := .ok i resp, sent := [req], drained := [], sleeps := [] } := by
          simp [httpDoRetryAux, htr, ht]
        rw [hdef] at h; simp at h
      | true =>
        cases hs : slp i with
        | ctxDone b =>
          have hdef : httpDoRetryAux transport jit slp req i (fuel + 1) =
              { outcome := .cancelled i { stopCalled := true, tickConsumed := b },
                sent := [req], drained := [i],
                sleeps := [(i, backOffDelay i (jit i),
                  { stopCalled := true, tickConsumed := b })] } := by
            simp [httpDoRetryAux, htr, ht, hs, sleepContext]
          rw [hdef] at h; simp at h
        | tick =>
          have hdef : httpDoRetryAux transport jit slp req i (fuel + 1) =
              { outcome := (httpDoRetryAux transport jit slp req (i + 1) fuel).outcome,
                sent := req :: (httpDoRetryAux transport jit slp req (i + 1) fuel).sent,
                drained := i :: (httpDoRetryAux transport jit slp req (i + 1) fuel).drained,
                sleeps := (i, backOffDelay i (jit i),
                    { stopCalled := false, tickConsumed := false }) ::
                  (httpDoRetryAux transport jit slp req (i + 1) fuel).sleeps } := by
            simp [httpDoRetryAux, htr, ht, hs, sleepContext]
          rw [hdef] at h ⊢
          obtain ⟨h1, h2, h3⟩ := ih (i + 1) j msg h
          exact ⟨by omega, by simp; omega, h3⟩

/-- Every attempt drained inside the loop had received a response whose
status is in the transient set. -/
lemma httpDoRetryAux_drained_transient : ∀ (fuel i j : Nat),
    j ∈ (httpDoRetryAux transport jit slp req i fuel).drained →
    ∃ r, transport req j = .response r ∧ transientStatus r.statusCode = true := by
  intro fuel
  induction fuel with
  | zero => intro i j h; simp [httpDoRetryAux] at h
  | succ fuel ih =>
    intro i j h
    cases htr : transport req i with
    | failure m => simp [httpDoRetryAux, htr] at h
    | response resp =>
      cases ht : transientStatus resp.statusCode with
      | false => simp [httpDoRetryAux, htr, ht] at h
      | true =>
        cases hs : slp i with
        | ctxDone b =>
          simp [httpDoRetryAux, htr, ht, hs, sleepContext] at h
          exact h ▸ ⟨resp, htr, ht⟩
        | tick =>
          simp [httpDoRetryAux, htr, ht, hs, sleepContext] at h
          rcases h with rfl | h
          · exact ⟨resp, htr, ht⟩
          · exact ih (i + 1) j h

/-- Every attempt drained inside the loop is followed by a recorded
backoff sleep for that same attempt. -/
lemma httpDoRetryAux_drained_sleeps : ∀ (fuel i j : Nat),
    j ∈ (httpDoRetryAux transport jit slp req i fuel).drained →
    ∃ e, (j, backOffDelay j (jit j), e) ∈ (httpDoRetryAux transport jit slp req i fuel).sleeps := by
  intro fuel
  induction fuel with
  | zero => intro i j h; simp [httpDoRetryAux] at h
  | succ fuel ih =>
    intro i j h
    cases htr : transport req i with
    | failure m => simp [httpDoRetryAux, htr] at h
    | response resp =>
      cases ht : transientStatus resp.statusCode with
      | false => simp [httpDoRetryAux, htr, ht] at h
      | true =>
        cases hs : slp i with
        | ctxDone b =>
          simp [httpDoRetryAux, htr, ht, hs, sleepContext] at h
          subst h
          exact ⟨{ stopCalled := true, tickConsumed := b }, by
            simp [httpDoRetryAux, htr, ht, hs, sleepContext]⟩
        | tick =>
          have hdef : httpDoRetryAux transport jit slp req i (fuel + 1) =
              { outcome := (httpDoRetryAux transport jit slp req (i + 1) fuel).outcome,
                sent := req :: (httpDoRetryAux transport jit slp req (i + 1) fuel).sent,
                drained := i :: (httpDoRetryAux transport jit slp req (i + 1) fuel).drained,
                sleeps := (i, backOffDelay i (jit i),
                    { stopCalled := false, tickConsumed := false }) ::
                  (httpDoRetryAux transport jit slp req (i + 1) fuel).sleeps } := by
            simp [httpDoRetryAux, htr, ht, hs, sleepContext]
          rw [hdef] at h ⊢
          simp at h
          rcases h with rfl | h
          · exact ⟨{ stopCalled := false, tickConsumed := false }, by simp⟩
          · obtain ⟨e, he⟩ := ih (i + 1) j h
            exact ⟨e, List.mem_cons_of_mem _ he⟩

/-- Unrolling the loop across `n` leading attempts that all received a
transient response and slept to completion: the trace is those `n`
attempts (sent, drained and slept in order) followed by the trace of the
loop restarted at attempt `i + n` with the remaining budget. -/
lemma httpDoRetryAux_reach : ∀ (n i fuel : Nat),
    (∀ k, i ≤ k → k < i + n →
      (∃ r, transport req k = .response r ∧ transientStatus r.statusCode = true) ∧
        slp k = .tick) →
    n ≤ fuel →
    httpDoRetryAux transport jit slp req i fuel =
      { outcome := (httpDoRetryAux transport jit slp req (i + n) (fuel - n)).outcome,
        sent := List.replicate n req ++
          (httpDoRetryAux transport jit slp req (i + n) (fuel - n)).sent,
        drained := List.range' i n ++
          (httpDoRetryAux transport jit slp req (i + n) (fuel - n)).drained,
        sleeps := (List.range' i n).map
            (fun k => (k, backOffDelay k (jit k),
              ({ stopCalled := false, tickConsumed := false } : SleepEffects))) ++
          (httpDoRetryAux transport jit slp req (i + n) (fuel - n)).sleeps } := by
  intro n
  induction n with
  | zero => intro i fuel hk hn; simp
  | succ n ih =>
    intro i fuel hk hn
    obtain ⟨⟨resp, htr, ht⟩, hs⟩ := hk i (le_refl i) (by omega)
    cases fuel with
    | zero => omega
    | succ fuel =>
      have hdef : httpDoRetryAux transport jit slp req i (fuel + 1) =
          { outcome := (httpDoRetryAux transport jit slp req (i + 1) fuel).outcome,
            sent := req :: (httpDoRetryAux transport jit slp req (i + 1) fuel).sent,
            drained := i :: (httpDoRetryAux transport jit slp req (i + 1) fuel).drained,
            sleeps := (i, backOffDelay i (jit i),
                { stopCalled := false, tickConsumed := false }) ::
              (httpDoRetryAux transport jit slp req (i + 1) fuel).sleeps } := by
        simp [httpDoRetryAux, htr, ht, hs, sleepContext]
      have hrec := ih (i + 1) fuel
        (fun k hk1 hk2 => hk k (by omega) (by omega)) (by omega)
      have hidx : i + 1 + n = i + (n + 1) := by omega
      have hfuel : fuel - n = fuel + 1 - (n + 1) := by omega
      rw [hdef, hrec, hidx, hfuel]
      simp [List.replicate_succ, List.range'_succ]

end RetryLemmas2

/-! ### Arithmetic of the backoff policy -/

/-- The max helper of the source agrees with the mathematical max. -/
lemma intMax_eq_max (a b : Int) : intMax a b = max a b := by
  unfold intMax
  rcases le_or_lt a b with h | h
  · rw [if_neg (not_lt.mpr h), max_eq_right h]
  · rw [if_pos h, max_eq_left h.le]

/-- The computed delay written with mathematical max and the jitter
offset made explicit. -/
lemma backOffDelay_eq_max (n j : Nat) :
    backOffDelay n j = max 100 ((backOffBase n : Int) + ((j : Int) - 50)) := by
  unfold backOffDelay minBackOffMs backOffJitterMs
  rw [intMax_eq_max]
  norm_num

/-- The integer backoff base is the real value 500 * 1.5 ^ n up to the
half-unit rounding error. -/
lemma backOffBase_bounds (n : Nat) :
    500 * (3 / 2 : ℚ) ^ n - 1 / 2 ≤ (backOffBase n : ℚ) ∧
      (backOffBase n : ℚ) ≤ 500 * (3 / 2 : ℚ) ^ n + 1 / 2 := by
  have hd : (0 : ℚ) < (2 : ℚ) ^ (n + 1) := by positivity
  have hmod := Nat.div_add_mod (1000 * 3 ^ n + 2 ^ n) (2 ^ (n + 1))
  have hcast : ((2 : ℚ) ^ (n + 1)) * (backOffBase n : ℚ) +
      (((1000 * 3 ^ n + 2 ^ n) % 2 ^ (n + 1) : ℕ) : ℚ) =
      1000 * (3 : ℚ) ^ n + (2 : ℚ) ^ n := by
    have := congrArg (Nat.cast (R := ℚ)) hmod
    push_cast at this
    rw [backOffBase]
    linarith [this]
  have hr0 : (0 : ℚ) ≤ (((1000 * 3 ^ n + 2 ^ n) % 2 ^ (n + 1) : ℕ) : ℚ) := by positivity
  have hrlt : (((1000 * 3 ^ n + 2 ^ n) % 2 ^ (n + 1) : ℕ) : ℚ) < (2 : ℚ) ^ (n + 1) := by
    exact_mod_cast Nat.mod_lt _ (by positivity)
  have hq : 500 * (3 / 2 : ℚ) ^ n * (2 : ℚ) ^ (n + 1) = 1000 * (3 : ℚ) ^ n := by
    rw [div_pow]
    have h2 : ((2 : ℚ) ^ n) ≠ 0 := by positivity
    field_simp
    ring
  have h2 : (2 : ℚ) ^ (n + 1) = 2 * (2 : ℚ) ^ n := by ring
  constructor
  · nlinarith [hcast, hrlt, hr0, hq, h2, hd]
  · nlinarith [hcast, hrlt, hr0, hq, h2, hd]

/-! ### Claim theorems: backoff arithmetic, Is-matching, classification -/

/-- C3: for every attempt n and every jitter draw j (a value of
rand.Intn(100)), the delay backOff passes to the timer equals
max(100ms, round(500ms * 1.5 ^ n) + jitter) with jitter = j - 50 a
uniform random offset lying in [-50ms, +50ms]; consequently the delay
lies in [max(100, 500 * 1.5 ^ n - 150), 500 * 1.5 ^ n + 150], is never
negative, and is never below the 100ms floor. -/
theorem backOff_delay_formula_and_bounds (n j : Nat) (hj : j < 100) :
    backOffDelay n j = max 100 ((backOffBase n : Int) + ((j : Int) - 50)) ∧
    ((-50 : Int) ≤ (j : Int) - 50 ∧ ((j : Int) - 50) ≤ 50) ∧
    |(backOffBase n : ℚ) - 500 * (3 / 2 : ℚ) ^ n| ≤ 1 / 2 ∧
    max (100 : ℚ) (500 * (3 / 2 : ℚ) ^ n - 150) ≤ ((backOffDelay n j : Int) : ℚ) ∧
    ((backOffDelay n j : Int) : ℚ) ≤ 500 * (3 / 2 : ℚ) ^ n + 150 ∧
    (0 : Int) ≤ backOffDelay n j ∧ (100 : Int) ≤ backOffDelay n j := by
  obtain ⟨hB1, hB2⟩ := backOffBase_bounds n
  have hQ : (500 : ℚ) ≤ 500 * (3 / 2 : ℚ) ^ n := by
    nlinarith [one_le_pow₀ (show (1 : ℚ) ≤ 3 / 2 by norm_num) (n := n)]
  have hjq0 : (0 : ℚ) ≤ (j : ℚ) := Nat.cast_nonneg j
  have hjq99 : (j : ℚ) ≤ 99 := by exact_mod_cast Nat.le_of_lt_succ hj
  have heq := backOffDelay_eq_max n j
  have hcastQ : ((backOffDelay n j : Int) : ℚ) =
      max 100 ((backOffBase n : ℚ) + ((j : ℚ) - 50)) := by
    rw [heq]
    push_cast [Int.cast_max]
    norm_num
  refine ⟨heq, ⟨by omega, by omega⟩, abs_le.mpr ⟨by linarith, by linarith⟩, ?_, ?_, ?_, ?_⟩
  · rw [hcastQ]
    refine max_le (le_max_left _ _) (le_trans ?_ (le_max_right _ _))
    linarith
  · rw [hcastQ]
    exact max_le (by linarith) (by linarith)
  · rw [heq]
    exact le_trans (by norm_num) (le_max_left _ _)
  · rw [heq]
    exact le_max_left _ _

/-- Witness for C3 at attempt 2, jitter draw 0. -/
theorem backOff_delay_formula_and_bounds_witness :
    (2 : Nat) < 100 ∧ ((0 : Int) ≤ backOffDelay 2 0 ∧ (100 : Int) ≤ backOffDelay 2 0) :=
  ⟨by decide, (backOff_delay_formula_and_bounds 2 0 (by decide)).2.2.2.2.2⟩

/-- C8: for bad-request, conflict and forbidden errors, Is(target) holds
iff the target is of the same concrete kind and each of the two detail
fields independently is either equal or empty in the target (empty target
fields act as wildcards); a different kind never matches, even with
identical field values. -/
theorem err_is_wildcard_matching (a : GenericError) (f : ForbiddenError) (target : ApiError) :
    (ErrBadRequest.Is a target = true ↔
      ∃ b, target = .errBadRequest b ∧
        (a.errorCode = b.errorCode ∨ b.errorCode = "") ∧
        (a.errorMessage = b.errorMessage ∨ b.errorMessage = "")) ∧
    (ErrConflict.Is a target = true ↔
      ∃ b, target = .errConflict b ∧
        (a.errorCode = b.errorCode ∨ b.errorCode = "") ∧
        (a.errorMessage = b.errorMessage ∨ b.errorMessage = "")) ∧
    (ErrForbidden.Is f target = true ↔
      ∃ b, target = .errForbidden b ∧
        (f.error = b.error ∨ b.error = "") ∧
        (f.errorDescription = b.errorDescription ∨ b.errorDescription = "")) ∧
    (∀ g, ErrBadRequest.Is a (.errConflict g) = false ∧
      ErrConflict.Is a (.errBadRequest g) = false ∧
      ErrBadRequest.Is a (.errForbidden f) = false) := by
  refine ⟨?_, ?_, ?_, fun g => ⟨rfl, rfl, rfl⟩⟩ <;>
    cases target <;>
      simp [ErrBadRequest.Is, ErrConflict.Is, ErrForbidden.Is, isSameGenericError,
        isSameForbiddenError, Bool.and_eq_true, Bool.or_eq_true, beq_iff_eq, and_assoc]

/-- Witness for C8: a populated bad-request matches the all-wildcard
bad-request target. -/
theorem err_is_wildcard_matching_witness :
    ErrBadRequest.Is { errorMessage := "m", errorCode := "c" }
      (.errBadRequest { errorMessage := "", errorCode := "" }) = true :=
  (err_is_wildcard_matching { errorMessage := "m", errorCode := "c" }
      { error := "x", errorDescription := "y" }
      (.errBadRequest { errorMessage := "", errorCode := "" })).1.mpr
    ⟨{ errorMessage := "", errorCode := "" }, rfl, Or.inr rfl, Or.inr rfl⟩

/-- C5: terminal classification is a function of the status code: 400
yields bad-request and 409 conflict, carrying the decoded generic body;
403 yields forbidden carrying the decoded forbidden body; 404 yields
not-found without any body decode; any other status yields the generic
HTTP error carrying the raw status code; and a body-decode failure for
400/409/403 surfaces as the distinct decode error, never as a typed kind. -/
theorem parseError_classification (resp : Response) :
    (resp.statusCode = 400 → ∀ g, resp.body.decodeGeneric = some g →
      parseError resp = .errBadRequest g) ∧
    (resp.statusCode = 409 → ∀ g, resp.body.decodeGeneric = some g →
      parseError resp = .errConflict g) ∧
    (resp.statusCode = 403 → ∀ f, resp.body.decodeForbidden = some f →
      parseError resp = .errForbidden f) ∧
    (resp.statusCode = 404 → parseError resp = .errNotFound) ∧
    (resp.statusCode ≠ 400 → resp.statusCode ≠ 403 → resp.statusCode ≠ 404 →
      resp.statusCode ≠ 409 → parseError resp = .errHttp resp.statusCode) ∧
    ((resp.statusCode = 400 ∨ resp.statusCode = 409) → resp.body.decodeGeneric = none →
      parseError resp = .errDecode) ∧
    (resp.statusCode = 403 → resp.body.decodeForbidden = none →
      parseError resp = .errDecode) ∧
    (∀ g h, ApiError.errDecode ≠ .errBadRequest g ∧ ApiError.errDecode ≠ .errConflict g ∧
      ApiError.errDecode ≠ .errForbidden h) := by
  refine ⟨?_, ?_, ?_, ?_, ?_, ?_, ?_, fun g h => by
    refine ⟨?_, ?_, ?_⟩ <;> intro hx <;> cases hx⟩
  · intro h400 g hg
    simp [parseError, parse400or409, h400, hg]
  · intro h409 g hg
    simp [parseError, parse400or409, h409, hg]
  · intro h403 f hf
    simp [parseError, parse403, h403, hf]
  · intro h404
    simp [parseError, h404]
  · intro h1 h2 h3 h4
    simp only [parseError]
    rw [if_neg (by simp [h1, h4]), if_neg (by simp [h2]), if_neg (by simp [h3])]
  · rintro (h | h) hg <;> simp [parseError, parse400or409, h, hg]
  · intro h403 hf
    simp [parseError, parse403, h403, hf]

/-- A concrete 400 response with a decodable generic error body. -/
def resp400Example : Response :=
  { statusCode := 400,
    body := { decodeGeneric := some { errorMessage := "m", errorCode := "c" },
              decodeForbidden := none, decodeEnvelope := none } }

/-- Witness for C5 at a 400 response with a decodable body. -/
theorem parseError_classification_witness :
    parseError resp400Example = .errBadRequest { errorMessage := "m", errorCode := "c" } :=
  (parseError_classification resp400Example).1 rfl { errorMessage := "m", errorCode := "c" } rfl

/-- C10: whenever Create or Fetch fails, the AccountData value returned
alongside the error is the zero value; no partial result survives. -/
theorem create_fetch_zero_value_on_error
    (transport : Request → Nat → TransportResult) (jit : Nat → Nat)
    (slp : Nat → SelectOutcome) (retryCount : Nat) (data : AccountData)
    (accountID : String) :
    ((api.Create transport jit slp retryCount data).2.2 ≠ none →
      (api.Create transport jit slp retryCount data).2.1 = AccountData.zero) ∧
    ((api.Fetch transport jit slp retryCount accountID).2.2 ≠ none →
      (api.Fetch transport jit slp retryCount accountID).2.1 = AccountData.zero) := by
  constructor
  · intro hne
    unfold api.Create at hne ⊢
    cases h : (httpDo transport jit slp retryCount "POST"
        (BaseURL ++ "/v1/organisation/accounts") (ReqBody.envelope data) true).result with
    | error e => simp [h]
    | ok d => simp [h] at hne
  · intro hne
    unfold api.Fetch at hne ⊢
    cases h : (httpDo transport jit slp retryCount "GET"
        (BaseURL ++ "/v1/organisation/accounts/" ++ accountID) ReqBody.jsonNull true).result with
    | error e => simp [h]
    | ok d => simp [h] at hne

/-! ### Glue lemmas between httpDo and its retry trace -/

/-- The attempt index whose response the caller of the retry loop owns. -/
def RetryOutcome.finalAttempt : RetryOutcome → Option Nat
  | .ok j _ => some j
  | _ => none

lemma finalAttempt_toList (o : RetryOutcome) : o.finalAttempt.toList = finalIdx o := by
  cases o <;> rfl

section HttpDoGlue

variable (transport : Request → Nat → TransportResult) (jit : Nat → Nat)
  (slp : Nat → SelectOutcome) (count : Nat) (method url : String)
  (body : ReqBody) (wantRes : Bool)

/-- httpDo returns the trace of the retry loop it ran unchanged. -/
lemma httpDo_retry_eq :
    (httpDo transport jit slp count method url body wantRes).retry =
      httpDoRetry transport jit slp (httpDoRequest method url body) count := by
  unfold httpDo
  cases h : (httpDoRetry transport jit slp (httpDoRequest method url body) count).outcome with
  | ok i resp =>
    simp only [h]
    split
    · split
      · cases resp.body.decodeEnvelope <;> rfl
      · rfl
    · rfl
  | transportFailure i msg => simp [h]
  | cancelled i eff => simp [h]
  | tooManyRetries => simp [h]

/-- httpDo drains the final response exactly when the retry loop returned
one, namely the response of the returned attempt, on every exit path. -/
lemma httpDo_finalDrained_eq :
    (httpDo transport jit slp count method url body wantRes).finalDrained =
      (httpDoRetry transport jit slp (httpDoRequest method url body) count).outcome.finalAttempt := by
  unfold httpDo
  cases h : (httpDoRetry transport jit slp (httpDoRequest method url body) count).outcome with
  | ok i resp =>
    simp only [h]
    split
    · split
      · cases resp.body.decodeEnvelope <;> rfl
      · rfl
    · rfl
  | transportFailure i msg => simp [h, RetryOutcome.finalAttempt]
  | cancelled i eff => simp [h, RetryOutcome.finalAttempt]
  | tooManyRetries => simp [h, RetryOutcome.finalAttempt]

/-- An exhausted budget surfaces as the too-many-retries error. -/
lemma httpDo_result_tooMany
    (h : (httpDoRetry transport jit slp (httpDoRequest method url body) count).outcome =
      .tooManyRetries) :
    (httpDo transport jit slp count method url body wantRes).result =
      .error .errTooManyRetries := by
  simp [httpDo, h]

/-- A transport failure surfaces unmodified. -/
lemma httpDo_result_transportFailure (j : Nat) (msg : String)
    (h : (httpDoRetry transport jit slp (httpDoRequest method url body) count).outcome =
      .transportFailure j msg) :
    (httpDo transport jit slp count method url body wantRes).result =
      .error (.errTransport msg) := by
  simp [httpDo, h]

/-- A cancelled backoff sleep surfaces as the cancellation error. -/
lemma httpDo_result_cancelled (j : Nat) (eff : SleepEffects)
    (h : (httpDoRetry transport jit slp (httpDoRequest method url body) count).outcome =
      .cancelled j eff) :
    (httpDo transport jit slp count method url body wantRes).result = .error .errCtx := by
  simp [httpDo, h]

end HttpDoGlue

section OperationGlue

variable (transport : Request → Nat → TransportResult) (jit : Nat → Nat)
  (slp : Nat → SelectOutcome) (count : Nat)

lemma apiCreate_fst (data : AccountData) :
    (api.Create transport jit slp count data).1 = httpDo transport jit slp count "POST"
      (BaseURL ++ "/v1/organisation/accounts") (.envelope data) true := by
  unfold api.Create
  cases h : (httpDo transport jit slp count "POST"
      (BaseURL ++ "/v1/organisation/accounts") (ReqBody.envelope data) true).result <;> simp [h]

lemma apiFetch_fst (accountID : String) :
    (api.Fetch transport jit slp count accountID).1 = httpDo transport jit slp count "GET"
      (BaseURL ++ "/v1/organisation/accounts/" ++ accountID) .jsonNull true := by
  unfold api.Fetch
  cases h : (httpDo transport jit slp count "GET"
      (BaseURL ++ "/v1/organisation/accounts/" ++ accountID) ReqBody.jsonNull true).result <;>
    simp [h]

lemma apiDelete_fst (accountID : String) (version : Int) :
    (api.Delete transport jit slp count accountID version).1 =
      httpDo transport jit slp count "DELETE"
        (BaseURL ++ "/v1/organisation/accounts/" ++ accountID ++ "?version="
          ++ toString version) .jsonNull false := by
  unfold api.Delete
  cases h : (httpDo transport jit slp count "DELETE"
      (BaseURL ++ "/v1/organisation/accounts/" ++ accountID ++ "?version="
        ++ toString version) ReqBody.jsonNull false).result <;> simp [h]

lemma apiCreate_err (data : AccountData) (e : ApiError)
    (h : (httpDo transport jit slp count "POST"
      (BaseURL ++ "/v1/organisation/accounts") (.envelope data) true).result = .error e) :
    (api.Create transport jit slp count data).2.2 = some e := by
  unfold api.Create
  simp [h]

lemma apiFetch_err (accountID : String) (e : ApiError)
    (h : (httpDo transport jit slp count "GET"
      (BaseURL ++ "/v1/organisation/accounts/" ++ accountID) .jsonNull true).result =
      .error e) :
    (api.Fetch transport jit slp count accountID).2.2 = some e := by
  unfold api.Fetch
  simp [h]

lemma apiDelete_err (accountID : String) (version : Int) (e : ApiError)
    (h : (httpDo transport jit slp count "DELETE"
      (BaseURL ++ "/v1/organisation/accounts/" ++ accountID ++ "?version="
        ++ toString version) .jsonNull false).result = .error e) :
    (api.Delete transport jit slp count accountID version).2 = some e := by
  unfold api.Delete
  simp [h]

end OperationGlue

/-- A retry loop whose every attempt receives a transient response and
whose every sleep completes exhausts its whole budget. -/
lemma httpDoRetry_all_transient (transport : Request → Nat → TransportResult)
    (jit : Nat → Nat) (slp : Nat → SelectOutcome) (req : Request) (count : Nat)
    (htr : ∀ i, ∃ r, transport req i = .response r ∧ transientStatus r.statusCode = true)
    (hs : ∀ i, slp i = .tick) :
    (httpDoRetry transport jit slp req count).outcome = .tooManyRetries ∧
    (httpDoRetry transport jit slp req count).sent.length = count := by
  have h := httpDoRetryAux_reach transport jit slp req count 0 count
    (fun k _ _ => ⟨htr k, hs k⟩) (le_refl count)
  unfold httpDoRetry
  rw [h]
  simp [httpDoRetryAux]

/-! ### Claim theorems: the retry engine -/

/-- C1: with a transport that returns status 429 on every send and all
sleeps completing, Create, Fetch and Delete each perform exactly K send
attempts (none when K = 0) and fail with the too-many-retries error. -/
theorem retry_always429_sends_exactly_K
    (transport : Request → Nat → TransportResult) (jit : Nat → Nat)
    (slp : Nat → SelectOutcome) (K : Nat) (data : AccountData) (accountID : String)
    (version : Int) (b : Body)
    (htr : ∀ req i, transport req i = .response { statusCode := 429, body := b })
    (hs : ∀ i, slp i = .tick) :
    ((api.Create transport jit slp K data).1.retry.sent.length = K ∧
      (api.Create transport jit slp K data).2.2 = some .errTooManyRetries) ∧
    ((api.Fetch transport jit slp K accountID).1.retry.sent.length = K ∧
      (api.Fetch transport jit slp K accountID).2.2 = some .errTooManyRetries) ∧
    ((api.Delete transport jit slp K accountID version).1.retry.sent.length = K ∧
      (api.Delete transport jit slp K accountID version).2 = some .errTooManyRetries) := by
  have hall : ∀ req : Request, ∀ i, ∃ r, transport req i = .response r ∧
      transientStatus r.statusCode = true :=
    fun req i => ⟨{ statusCode := 429, body := b }, htr req i, rfl⟩
  refine ⟨⟨?_, ?_⟩, ⟨?_, ?_⟩, ⟨?_, ?_⟩⟩
  · rw [apiCreate_fst, httpDo_retry_eq]
    exact (httpDoRetry_all_transient transport jit slp _ K (hall _) hs).2
  · exact apiCreate_err transport jit slp K data .errTooManyRetries
      (httpDo_result_tooMany transport jit slp K _ _ _ true
        (httpDoRetry_all_transient transport jit slp _ K (hall _) hs).1)
  · rw [apiFetch_fst, httpDo_retry_eq]
    exact (httpDoRetry_all_transient transport jit slp _ K (hall _) hs).2
  · exact apiFetch_err transport jit slp K accountID .errTooManyRetries
      (httpDo_result_tooMany transport jit slp K _ _ _ true
        (httpDoRetry_all_transient transport jit slp _ K (hall _) hs).1)
  · rw [apiDelete_fst, httpDo_retry_eq]
    exact (httpDoRetry_all_transient transport jit slp _ K (hall _) hs).2
  · exact apiDelete_err transport jit slp K accountID version .errTooManyRetries
      (httpDo_result_tooMany transport jit slp K _ _ _ false
        (httpDoRetry_all_transient transport jit slp _ K (hall _) hs).1)

/-- A body none of whose decodes succeed. -/
def emptyBody : Body := { decodeGeneric := none, decodeForbidden := none, decodeEnvelope := none }

/-- A transport stub that always answers 429. -/
def tr429 : Request → Nat → TransportResult :=
  fun _ _ => .response { statusCode := 429, body := emptyBody }

/-- The all-zero jitter draw sequence. -/
def jitZero : Nat → Nat := fun _ => 0

/-- The always-completing sleep race sequence. -/
def slpTick : Nat → SelectOutcome := fun _ => .tick

/-- Witness for C1 at K = 2 (and implicitly the K = 0 shape of the same
statement at the level of the general theorem). -/
theorem retry_always429_sends_exactly_K_witness :
    ((api.Create tr429 jitZero slpTick 2 AccountData.zero).1.retry.sent.length = 2 ∧
      (api.Create tr429 jitZero slpTick 2 AccountData.zero).2.2 = some .errTooManyRetries) ∧
    ((api.Fetch tr429 jitZero slpTick 2 "a").1.retry.sent.length = 2 ∧
      (api.Fetch tr429 jitZero slpTick 2 "a").2.2 = some .errTooManyRetries) ∧
    ((api.Delete tr429 jitZero slpTick 2 "a" 1).1.retry.sent.length = 2 ∧
      (api.Delete tr429 jitZero slpTick 2 "a" 1).2 = some .errTooManyRetries) :=
  retry_always429_sends_exactly_K tr429 jitZero slpTick 2 AccountData.zero "a" 1 emptyBody
    (fun _ _ => rfl) (fun _ => rfl)

/-- C9: every request the engine delivers to the transport, on every
attempt, is the one request built before the loop, so it carries the same
body bytes as the request of attempt 0. -/
theorem retry_resends_same_body
    (transport : Request → Nat → TransportResult) (jit : Nat → Nat)
    (slp : Nat → SelectOutcome) (count : Nat) (method url : String)
    (body : ReqBody) (wantRes : Bool) :
    (httpDo transport jit slp count method url body wantRes).retry.sent =
      List.replicate (httpDo transport jit slp count method url body wantRes).retry.sent.length
        (httpDoRequest method url body) ∧
    ∀ r ∈ (httpDo transport jit slp count method url body wantRes).retry.sent,
      r.body = body := by
  rw [httpDo_retry_eq]
  have h := httpDoRetryAux_sent_replicate transport jit slp (httpDoRequest method url body)
    count 0
  refine ⟨h, ?_⟩
  intro r hr
  rw [show httpDoRetry transport jit slp (httpDoRequest method url body) count =
    httpDoRetryAux transport jit slp (httpDoRequest method url body) 0 count from rfl] at hr
  rw [h] at hr
  rw [List.eq_of_mem_replicate hr]
  rfl

/-- Witness for C9 with one attempt delivered. -/
theorem retry_resends_same_body_witness :
    (httpDoRequest "GET" "u" ReqBody.jsonNull).body = ReqBody.jsonNull :=
  (retry_resends_same_body tr429 jitZero slpTick 1 "GET" "u" ReqBody.jsonNull false).2
    (httpDoRequest "GET" "u" ReqBody.jsonNull) (by decide)

/-- C2: the bodies drained inside the loop together with the final body
drained by the executor are exactly the responses received from the
transport, each exactly once, on the success, terminal-error and
decode-failure paths alike; the final response is drained by the executor
and never also inside the loop. -/
theorem httpDo_drains_every_response_body
    (transport : Request → Nat → TransportResult) (jit : Nat → Nat)
    (slp : Nat → SelectOutcome) (count : Nat) (method url : String)
    (body : ReqBody) (wantRes : Bool) :
    (httpDo transport jit slp count method url body wantRes).retry.drained ++
        (httpDo transport jit slp count method url body wantRes).finalDrained.toList =
      (List.range (httpDo transport jit slp count method url body wantRes).retry.sent.length).filter
        (fun j => (transport (httpDoRequest method url body) j).isResponse) ∧
    ((httpDo transport jit slp count method url body wantRes).retry.drained ++
      (httpDo transport jit slp count method url body wantRes).finalDrained.toList).Nodup ∧
    (∀ i resp,
      (httpDo transport jit slp count method url body wantRes).retry.outcome = .ok i resp →
      (httpDo transport jit slp count method url body wantRes).finalDrained = some i ∧
        i ∉ (httpDo transport jit slp count method url body wantRes).retry.drained) := by
  have hledger : (httpDo transport jit slp count method url body wantRes).retry.drained ++
      (httpDo transport jit slp count method url body wantRes).finalDrained.toList =
      (List.range
        (httpDo transport jit slp count method url body wantRes).retry.sent.length).filter
        (fun j => (transport (httpDoRequest method url body) j).isResponse) := by
    rw [httpDo_retry_eq, httpDo_finalDrained_eq, finalAttempt_toList, List.range_eq_range']
    exact httpDoRetryAux_ledger transport jit slp (httpDoRequest method url body) count 0
  refine ⟨hledger, ?_, ?_⟩
  · rw [hledger]
    exact (List.nodup_range _).filter _
  · intro i resp h
    rw [httpDo_retry_eq] at h
    constructor
    · rw [httpDo_finalDrained_eq, h]
      rfl
    · rw [httpDo_retry_eq]
      exact (httpDoRetryAux_ok_char transport jit slp (httpDoRequest method url body)
        count 0 i resp h).2.2.2.2

/-- A transport stub that always answers 200 with an undecodable body
(the decode-failure path of the executor). -/
def tr200bad : Request → Nat → TransportResult :=
  fun _ _ => .response { statusCode := 200, body := emptyBody }

/-- Witness for C2 on the decode-failure path: one response received, and
it is drained exactly once, by the executor. -/
theorem httpDo_drains_every_response_body_witness :
    (httpDo tr200bad jitZero slpTick 3 "GET" "u" ReqBody.jsonNull true).finalDrained = some 0 ∧
      0 ∉ (httpDo tr200bad jitZero slpTick 3 "GET" "u" ReqBody.jsonNull true).retry.drained :=
  (httpDo_drains_every_response_body tr200bad jitZero slpTick 3 "GET" "u"
      ReqBody.jsonNull true).2.2 0 { statusCode := 200, body := emptyBody } (by decide)

/-- C4: the transient set is exactly the closed set 429/500/503/504; a
response reached by the loop with such a status is drained and followed
by a backoff sleep, while a response with any other status is returned
unconsumed as the outcome of the loop and is never retried. -/
theorem retry_transient_set_dispatch
    (transport : Request → Nat → TransportResult) (jit : Nat → Nat)
    (slp : Nat → SelectOutcome) (req : Request) (count j : Nat) (resp : Response)
    (hreach : ∀ k, k < j →
      (∃ r, transport req k = .response r ∧ transientStatus r.statusCode = true) ∧
        slp k = .tick)
    (hj : j < count)
    (hresp : transport req j = .response resp) :
    (∀ s, transientStatus s = true ↔ (s = 429 ∨ s = 500 ∨ s = 503 ∨ s = 504)) ∧
    (transientStatus resp.statusCode = true →
      j ∈ (httpDoRetry transport jit slp req count).drained ∧
      ∃ e, (j, backOffDelay j (jit j), e) ∈ (httpDoRetry transport jit slp req count).sleeps) ∧
    (transientStatus resp.statusCode = false →
      (httpDoRetry transport jit slp req count).outcome = .ok j resp ∧
      j ∉ (httpDoRetry transport jit slp req count).drained ∧
      (httpDoRetry transport jit slp req count).sent.length = j + 1) := by
  have hre := httpDoRetryAux_reach transport jit slp req j 0 count
    (fun k _ hk => hreach k (by omega)) (le_of_lt hj)
  rw [Nat.zero_add] at hre
  obtain ⟨m, hm⟩ : ∃ m, count - j = m + 1 := ⟨count - j - 1, by omega⟩
  rw [hm] at hre
  refine ⟨fun s => by simp [transientStatus, or_assoc], ?_, ?_⟩
  · intro ht
    cases hs : slp j with
    | tick =>
      have hstep : httpDoRetryAux transport jit slp req j (m + 1) =
          { outcome := (httpDoRetryAux transport jit slp req (j + 1) m).outcome,
            sent := req :: (httpDoRetryAux transport jit slp req (j + 1) m).sent,
            drained := j :: (httpDoRetryAux transport jit slp req (j + 1) m).drained,
            sleeps := (j, backOffDelay j (jit j),
                { stopCalled := false, tickConsumed := false }) ::
              (httpDoRetryAux transport jit slp req (j + 1) m).sleeps } := by
        simp [httpDoRetryAux, hresp, ht, hs, sleepContext]
      rw [hstep] at hre
      unfold httpDoRetry
      rw [hre]
      refine ⟨List.mem_append_right _ (List.mem_cons_self _ _), ?_⟩
      exact ⟨{ stopCalled := false, tickConsumed := false },
        List.mem_append_right _ (List.mem_cons_self _ _)⟩
    | ctxDone b =>
      have hstep : httpDoRetryAux transport jit slp req j (m + 1) =
          { outcome := .cancelled j { stopCalled := true, tickConsumed := b },
            sent := [req], drained := [j],
            sleeps := [(j, backOffDelay j (jit j),
              { stopCalled := true, tickConsumed := b })] } := by
        simp [httpDoRetryAux, hresp, ht, hs, sleepContext]
      rw [hstep] at hre
      unfold httpDoRetry
      rw [hre]
      refine ⟨List.mem_append_right _ (List.mem_cons_self _ _), ?_⟩
      exact ⟨{ stopCalled := true, tickConsumed := b },
        List.mem_append_right _ (List.mem_cons_self _ _)⟩
  · intro ht
    have hstep : httpDoRetryAux transport jit slp req j (m + 1) =
        { outcome := .ok j resp, sent := [req], drained := [], sleeps := [] } := by
      simp [httpDoRetryAux, hresp, ht]
    rw [hstep] at hre
    unfold httpDoRetry
    rw [hre]
    refine ⟨rfl, ?_, by simp⟩
    simp only [List.append_nil]
    intro hmem
    have := List.mem_range'_1.mp hmem
    omega

/-- Witness for C4: with a 429 at attempt 0 the loop drains attempt 0 and
sleeps; the general theorem applied at j = 0, count = 1. -/
theorem retry_transient_set_dispatch_witness :
    0 ∈ (httpDoRetry tr429 jitZero slpTick (httpDoRequest "GET" "u" ReqBody.jsonNull) 1).drained ∧
    ∃ e, (0, backOffDelay 0 (jitZero 0), e) ∈
      (httpDoRetry tr429 jitZero slpTick (httpDoRequest "GET" "u" ReqBody.jsonNull) 1).sleeps :=
  (retry_transient_set_dispatch tr429 jitZero slpTick
      (httpDoRequest "GET" "u" ReqBody.jsonNull) 1 0
      { statusCode := 429, body := emptyBody }
      (fun k hk => absurd hk (Nat.not_lt_zero k)) (by decide) rfl).2.1 rfl

/-- C6: if the cancellation signal wins the race during the backoff sleep
of a reached attempt, the sleep stops the timer (consuming the racing
fire signal exactly when the timer had already fired), the loop makes no
further send attempts, and the operation fails with the cancellation
error. -/
theorem cancellation_during_sleep
    (transport : Request → Nat → TransportResult) (jit : Nat → Nat)
    (slp : Nat → SelectOutcome) (count : Nat) (method url : String) (body : ReqBody)
    (wantRes : Bool) (j : Nat) (fired : Bool) (resp : Response)
    (hreach : ∀ k, k < j →
      (∃ r, transport (httpDoRequest method url body) k = .response r ∧
        transientStatus r.statusCode = true) ∧ slp k = .tick)
    (hj : j < count)
    (hresp : transport (httpDoRequest method url body) j = .response resp)
    (ht : transientStatus resp.statusCode = true)
    (hs : slp j = .ctxDone fired) :
    (httpDo transport jit slp count method url body wantRes).retry.outcome =
      .cancelled j { stopCalled := true, tickConsumed := fired } ∧
    (j, backOffDelay j (jit j),
        ({ stopCalled := true, tickConsumed := fired } : SleepEffects)) ∈
      (httpDo transport jit slp count method url body wantRes).retry.sleeps ∧
    (httpDo transport jit slp count method url body wantRes).retry.sent.length = j + 1 ∧
    (httpDo transport jit slp count method url body wantRes).result = .error .errCtx := by
  have hre := httpDoRetryAux_reach transport jit slp (httpDoRequest method url body) j 0 count
    (fun k _ hk => hreach k (by omega)) (le_of_lt hj)
  rw [Nat.zero_add] at hre
  obtain ⟨m, hm⟩ : ∃ m, count - j = m + 1 := ⟨count - j - 1, by omega⟩
  rw [hm] at hre
  have hstep : httpDoRetryAux transport jit slp (httpDoRequest method url body) j (m + 1) =
      { outcome := .cancelled j { stopCalled := true, tickConsumed := fired },
        sent := [httpDoRequest method url body], drained := [j],
        sleeps := [(j, backOffDelay j (jit j),
          { stopCalled := true, tickConsumed := fired })] } := by
    simp [httpDoRetryAux, hresp, ht, hs, sleepContext]
  rw [hstep] at hre
  have houtcome : (httpDoRetry transport jit slp (httpDoRequest method url body) count).outcome =
      .cancelled j { stopCalled := true, tickConsumed := fired } := by
    unfold httpDoRetry
    rw [hre]
  refine ⟨?_, ?_, ?_, ?_⟩
  · rw [httpDo_retry_eq]
    exact houtcome
  · rw [httpDo_retry_eq]
    unfold httpDoRetry
    rw [hre]
    exact List.mem_append_right _ (List.mem_cons_self _ _)
  · rw [httpDo_retry_eq]
    unfold httpDoRetry
    rw [hre]
    simp
  · exact httpDo_result_cancelled transport jit slp count method url body wantRes j
      { stopCalled := true, tickConsumed := fired } houtcome

/-- The race sequence in which the cancellation wins the very first
sleep, with the timer found already fired (Stop() returns false). -/
def slpCancelAtZero : Nat → SelectOutcome :=
  fun i => if i = 0 then .ctxDone true else .tick

/-- Witness for C6: cancellation during the first backoff sleep. -/
theorem cancellation_during_sleep_witness :
    (httpDo tr429 jitZero slpCancelAtZero 5 "GET" "u" ReqBody.jsonNull false).retry.outcome =
      .cancelled 0 { stopCalled := true, tickConsumed := true } ∧
    (0, backOffDelay 0 (jitZero 0),
        ({ stopCalled := true, tickConsumed := true } : SleepEffects)) ∈
      (httpDo tr429 jitZero slpCancelAtZero 5 "GET" "u" ReqBody.jsonNull false).retry.sleeps ∧
    (httpDo tr429 jitZero slpCancelAtZero 5 "GET" "u" ReqBody.jsonNull false).retry.sent.length =
      0 + 1 ∧
    (httpDo tr429 jitZero slpCancelAtZero 5 "GET" "u" ReqBody.jsonNull false).result =
      .error .errCtx :=
  cancellation_during_sleep tr429 jitZero slpCancelAtZero 5 "GET" "u" ReqBody.jsonNull false
    0 true { statusCode := 429, body := emptyBody }
    (fun k hk => absurd hk (Nat.not_lt_zero k)) (by decide) rfl rfl rfl

/-- C7: a transport-level failure on any reached attempt aborts the loop
immediately — its message is propagated unmodified and no further
attempts are made, regardless of the remaining budget. -/
theorem transport_failure_aborts
    (transport : Request → Nat → TransportResult) (jit : Nat → Nat)
    (slp : Nat → SelectOutcome) (count : Nat) (method url : String) (body : ReqBody)
    (wantRes : Bool) (j : Nat) (msg : String)
    (hreach : ∀ k, k < j →
      (∃ r, transport (httpDoRequest method url body) k = .response r ∧
        transientStatus r.statusCode = true) ∧ slp k = .tick)
    (hj : j < count)
    (hfail : transport (httpDoRequest method url body) j = .failure msg) :
    (httpDo transport jit slp count method url body wantRes).retry.outcome =
      .transportFailure j msg ∧
    (httpDo transport jit slp count method url body wantRes).retry.sent.length = j + 1 ∧
    (httpDo transport jit slp count method url body wantRes).result =
      .error (.errTransport msg) := by
  have hre := httpDoRetryAux_reach transport jit slp (httpDoRequest method url body) j 0 count
    (fun k _ hk => hreach k (by omega)) (le_of_lt hj)
  rw [Nat.zero_add] at hre
  obtain ⟨m, hm⟩ : ∃ m, count - j = m + 1 := ⟨count - j - 1, by omega⟩
  rw [hm] at hre
  have hstep : httpDoRetryAux transport jit slp (httpDoRequest method url body) j (m + 1) =
      { outcome := .transportFailure j msg, sent := [httpDoRequest method url body],
        drained := [], sleeps := [] } := by
    simp [httpDoRetryAux, hfail]
  rw [hstep] at hre
  have houtcome : (httpDoRetry transport jit slp (httpDoRequest method url body) count).outcome =
      .transportFailure j msg := by
    unfold httpDoRetry
    rw [hre]
  refine ⟨?_, ?_, ?_⟩
  · rw [httpDo_retry_eq]
    exact houtcome
  · rw [httpDo_retry_eq]
    unfold httpDoRetry
    rw [hre]
    simp
  · exact httpDo_result_transportFailure transport jit slp count method url body wantRes j msg
      houtcome

/-- A transport stub that answers 429 at attempt 0 and fails at the wire
level from attempt 1 on. -/
def trFailAt1 : Request → Nat → TransportResult :=
  fun _ i => if i = 0 then .response { statusCode := 429, body := emptyBody }
    else .failure "connection refused"

/-- Witness for C7: a wire failure at attempt 1 with budget 5. -/
theorem transport_failure_aborts_witness :
    (httpDo trFailAt1 jitZero slpTick 5 "GET" "u" ReqBody.jsonNull false).retry.outcome =
      .transportFailure 1 "connection refused" ∧
    (httpDo trFailAt1 jitZero slpTick 5 "GET" "u" ReqBody.jsonNull false).retry.sent.length =
      1 + 1 ∧
    (httpDo trFailAt1 jitZero slpTick 5 "GET" "u" ReqBody.jsonNull false).result =
      .error (.errTransport "connection refused") :=
  transport_failure_aborts trFailAt1 jitZero slpTick 5 "GET" "u" ReqBody.jsonNull false 1
    "connection refused"
    (fun k hk => by
      have : k = 0 := by omega
      subst this
      exact ⟨⟨{ statusCode := 429, body := emptyBody }, rfl, rfl⟩, rfl⟩)
    (by decide) rfl

/-- Witness for C10: failing Create and Fetch calls return the zero
AccountData value. -/
theorem create_fetch_zero_value_on_error_witness :
    (api.Create tr429 jitZero slpTick 1 AccountData.zero).2.1 = AccountData.zero ∧
    (api.Fetch tr429 jitZero slpTick 1 "a").2.1 = AccountData.zero :=
  ⟨(create_fetch_zero_value_on_error tr429 jitZero slpTick 1 AccountData.zero "a").1 (by decide),
   (create_fetch_zero_value_on_error tr429 jitZero slpTick 1 AccountData.zero "a").2 (by decide)⟩
